import Mathlib

/-!
# th_logger: a shallow embedding of `Th::Log::Logger`

The development follows the C++ sources

* `include/th_logger/log_level.h`, `dev/src/log_level.cpp` : `LogLevel`, `ToString`
* `include/th_logger/logger.h`, `include/th_logger/logger.hpp` : `Logger`

Modelling decisions.

* Text is `String`.  The sink (`std::ostream`) is the chronological list of
  the operations applied to it: one `Ev.write t` per `operator<<`, one
  `Ev.flush` per `std::flush`.  The text held by the sink is the
  concatenation of its writes.  The sink is always in a good state (the
  logger never looks at the stream's error bits).
* `std::chrono::system_clock::now()`, the rendering of a time point by
  `std::format("{}", time)` and `std::format` applied to a caller's format
  string belong to the standard library; they are the fields of `Env`.
* A parameter pack `Args &&... args` is a `List Arg`; `Arg.text` is the text
  which `operator<<` inserts for the value (default stream flags).
* An iterator is an `Int` position in a container `xs`; `*it` is defined for
  `0 ≤ it < xs.length` only, every other access is reported as
  `Res.badDeref`.
* The lock taken at the start of `_Log` / `_LogIter` has no effect on a
  sequential run and is not part of the state.
-/

namespace Th.Log

/-! ## log_level.h / log_level.cpp -/

/-- The enumeration `enum class LogLevel` of `log_level.h`. -/
inductive LogLevel
  | Trace
  | Debug
  | Info
  | Success
  | Warn
  | Error
  | Fatal
  deriving DecidableEq

/-- The enumerator values `Trace = 0, ..., Fatal = 6`. -/
def LogLevel.toInt : LogLevel → Int
  | .Trace => 0
  | .Debug => 1
  | .Info => 2
  | .Success => 3
  | .Warn => 4
  | .Error => 5
  | .Fatal => 6

/-- The `switch` of `ToString` over the underlying value of the enumeration,
with its `default: return ""` branch. -/
def ToStringRaw (v : Int) : String :=
  if v = 0 then "Trace"
  else if v = 1 then "Debug"
  else if v = 2 then "Info"
  else if v = 3 then "Success"
  else if v = 4 then "Warn"
  else if v = 5 then "Error"
  else if v = 6 then "Fatal"
  else ""

/-- The function `const char * ToString(LogLevel level)` of `log_level.cpp`. -/
def ToString (level : LogLevel) : String :=
  ToStringRaw level.toInt

/-! ## The sink -/

/-- One operation applied to the sink. -/
inductive Ev
  | write (t : String)
  | flush
  deriving DecidableEq

/-- The sink, as the chronological list of the operations applied to it. -/
structure OStream where
  events : List Ev
  deriving DecidableEq

/-- The insertion `stream << t`. -/
def OStream.put (s : OStream) (t : String) : OStream :=
  ⟨s.events ++ [Ev.write t]⟩

/-- The call `std::flush(stream)`. -/
def OStream.flush (s : OStream) : OStream :=
  ⟨s.events ++ [Ev.flush]⟩

/-- Concatenation of the texts written by a list of sink operations. -/
def evText : List Ev → String
  | [] => ""
  | Ev.write t :: r => t ++ evText r
  | Ev.flush :: r => evText r

/-- Number of flushes in a list of sink operations. -/
def evFlushes : List Ev → Nat
  | [] => 0
  | Ev.write _ :: r => evFlushes r
  | Ev.flush :: r => evFlushes r + 1

/-- The text the sink holds. -/
def OStream.content (s : OStream) : String :=
  evText s.events

/-- The flush counter of the sink. -/
def OStream.flushCount (s : OStream) : Nat :=
  evFlushes s.events

/-! ## Arguments -/

/-- A value passed to a logging operation. -/
inductive Arg
  | str (s : String)
  | chr (c : Char)
  | int (i : Int)
  | uint (n : Nat)
  | bool (b : Bool)
  deriving DecidableEq

/-- The text inserted by `stream << a` (decimal integers, `bool` as `1`/`0`). -/
def Arg.text : Arg → String
  | .str s => s
  | .chr c => String.singleton c
  | .int i => toString i
  | .uint n => toString n
  | .bool b => if b then "1" else "0"

/-! ## The standard library services the logger calls -/

/-- The standard library as seen by the logger: the clock reading of this
call, the clock period, the rendering of a millisecond time point and
`std::format` on a caller's format string (`none`: the call is ill-formed or
throws, nothing is returned). -/
structure Env where
  now : Int
  ticksPerMilli : Int
  fmtTime : Int → String
  format : String → List Arg → Option String

/-- The value `time_point_cast<milliseconds>(now)`: truncation toward zero. -/
def Env.time (env : Env) : Int :=
  Int.tdiv env.now env.ticksPerMilli

/-! ## logger.h / logger.hpp -/

/-- The data members of `Logger`; the defaults are the member initialisers
`_defaultLevel = LogLevel::Info` and `_forceFlush = false`. -/
structure Logger where
  _name : String
  _stream : OStream
  _defaultLevel : LogLevel := LogLevel.Info
  _forceFlush : Bool := false
  deriving DecidableEq

/-- Result of an operation that dereferences iterators. -/
inductive Res (α : Type)
  | done (a : α)
  | badDeref (it : Int) (s : OStream)
  | noFuel
  deriving DecidableEq

/-- The access `*it` on the container `xs`. -/
def deref (xs : List Arg) (it : Int) : Option Arg :=
  if 0 ≤ it then xs[it.toNat]? else none

namespace Logger

/-- The constructors `Logger(name, stream)`. -/
def new (name : String) (stream : OStream) : Logger :=
  { _name := name, _stream := stream }

/-- The member `GetName`. -/
def GetName (lg : Logger) : String :=
  lg._name

/-- The member `GetStream`. -/
def GetStream (lg : Logger) : OStream :=
  lg._stream

/-- The member `SetDefaultLogLevel`. -/
def SetDefaultLogLevel (lg : Logger) (level : LogLevel) : Logger :=
  { lg with _defaultLevel := level }

/-- The member `SetForceFlush`. -/
def SetForceFlush (lg : Logger) (forceFlush : Bool) : Logger :=
  { lg with _forceFlush := forceFlush }

/-- The text `std::format("[{}] [{}] [{}]: ", time, ToString(level), _name)`
of `_Log`. -/
def header (lg : Logger) (env : Env) (level : LogLevel) : String :=
  "[" ++ env.fmtTime env.time ++ "] [" ++ ToString level ++ "] [" ++ lg._name ++ "]: "

/-- The text `std::format("[{}] [{}] [{}]: {{ ", time, ToString(level), _name)`
of `_LogIter`. -/
def headerIter (lg : Logger) (env : Env) (level : LogLevel) : String :=
  "[" ++ env.fmtTime env.time ++ "] [" ++ ToString level ++ "] [" ++ lg._name ++ "]: \x7b "

/-- The fold `(_stream << ... << args)`. -/
def putArgs (s : OStream) (args : List Arg) : OStream :=
  args.foldl (fun acc a => acc.put a.text) s

/-- The member `_Log(level, args...)`. -/
def _Log (lg : Logger) (env : Env) (level : LogLevel) (args : List Arg) : Logger :=
  let s1 := lg._stream.put (header lg env level)
  let s2 := (putArgs s1 args).put "\n"
  { lg with _stream := if lg._forceFlush then s2.flush else s2 }

/-- The loop `for (; begin != end - 1; ++begin) { _stream << *begin << ", "; }`
of `_LogIter`; the first argument bounds the number of evaluations of the
guard. -/
def iterLoop (xs : List Arg) (end_ : Int) : Nat → Int → OStream → Res (Int × OStream)
  | 0, _, _ => Res.noFuel
  | fuel + 1, it, s =>
    if it ≠ end_ - 1 then
      match deref xs it with
      | none => Res.badDeref it s
      | some x => iterLoop xs end_ fuel (it + 1) ((s.put x.text).put ", ")
    else Res.done (it, s)

/-- The member `_LogIter(level, begin, end)` on iterators into `xs`. -/
def _LogIter (lg : Logger) (env : Env) (level : LogLevel) (xs : List Arg)
    (begin_ end_ : Int) : Res Logger :=
  let s1 := lg._stream.put (headerIter lg env level)
  match iterLoop xs end_ (xs.length + 1) begin_ s1 with
  | Res.done (it, s2) =>
    match deref xs it with
    | none => Res.badDeref it s2
    | some x =>
      let s3 := (s2.put x.text).put " \x7d\n"
      Res.done { lg with _stream := if lg._forceFlush then s3.flush else s3 }
  | Res.badDeref it s => Res.badDeref it s
  | Res.noFuel => Res.noFuel

/-- The writes of the loop of `_LogIter` when it runs over the elements `l`:
each element followed by `", "`. -/
def loopEvents : List Arg → List Ev
  | [] => []
  | a :: r => Ev.write a.text :: Ev.write ", " :: loopEvents r

/-- The overload `Log(args...)`. -/
def Log (lg : Logger) (env : Env) (args : List Arg) : Logger :=
  lg._Log env lg._defaultLevel args

/-- The overload `Log(level, args...)`. -/
def LogL (lg : Logger) (env : Env) (level : LogLevel) (args : List Arg) : Logger :=
  lg._Log env level args

/-- The overload `LogIt(begin, end)`. -/
def LogIt (lg : Logger) (env : Env) (xs : List Arg) (begin_ end_ : Int) : Res Logger :=
  lg._LogIter env lg._defaultLevel xs begin_ end_

/-- The overload `LogIt(level, begin, end)`. -/
def LogItL (lg : Logger) (env : Env) (level : LogLevel) (xs : List Arg)
    (begin_ end_ : Int) : Res Logger :=
  lg._LogIter env level xs begin_ end_

/-- The overload `LogF(fmt, args...)`: the argument `std::format(fmt, args...)`
is evaluated before `_Log` is entered. -/
def LogF (lg : Logger) (env : Env) (fmt : String) (args : List Arg) : Option Logger :=
  match env.format fmt args with
  | none => none
  | some s => some (lg._Log env lg._defaultLevel [Arg.str s])

/-- The overload `LogF(level, fmt, args...)`. -/
def LogFL (lg : Logger) (env : Env) (level : LogLevel) (fmt : String)
    (args : List Arg) : Option Logger :=
  match env.format fmt args with
  | none => none
  | some s => some (lg._Log env level [Arg.str s])

/-! ### Shortcuts (`logger.h`, lines 146-199) -/

/-- The shortcut `Trace(args...)`. -/
def Trace (lg : Logger) (env : Env) (args : List Arg) : Logger :=
  lg.LogL env LogLevel.Trace args

/-- The shortcut `TraceIt(begin, end)`. -/
def TraceIt (lg : Logger) (env : Env) (xs : List Arg) (begin_ end_ : Int) : Res Logger :=
  lg.LogItL env LogLevel.Trace xs begin_ end_

/-- The shortcut `TraceF(fmt, args...)`. -/
def TraceF (lg : Logger) (env : Env) (fmt : String) (args : List Arg) : Option Logger :=
  lg.LogFL env LogLevel.Trace fmt args

/-- The shortcut `Debug(args...)`. -/
def Debug (lg : Logger) (env : Env) (args : List Arg) : Logger :=
  lg.LogL env LogLevel.Debug args

/-- The shortcut `DebugIt(begin, end)`. -/
def DebugIt (lg : Logger) (env : Env) (xs : List Arg) (begin_ end_ : Int) : Res Logger :=
  lg.LogItL env LogLevel.Debug xs begin_ end_

/-- The shortcut `DebugF(fmt, args...)`. -/
def DebugF (lg : Logger) (env : Env) (fmt : String) (args : List Arg) : Option Logger :=
  lg.LogFL env LogLevel.Debug fmt args

/-- The shortcut `Info(args...)`. -/
def Info (lg : Logger) (env : Env) (args : List Arg) : Logger :=
  lg.LogL env LogLevel.Info args

/-- The shortcut `InfoIt(begin, end)`. -/
def InfoIt (lg : Logger) (env : Env) (xs : List Arg) (begin_ end_ : Int) : Res Logger :=
  lg.LogItL env LogLevel.Info xs begin_ end_

/-- The shortcut `InfoF(fmt, args...)`. -/
def InfoF (lg : Logger) (env : Env) (fmt : String) (args : List Arg) : Option Logger :=
  lg.LogFL env LogLevel.Info fmt args

/-- The shortcut `Success(args...)`. -/
def Success (lg : Logger) (env : Env) (args : List Arg) : Logger :=
  lg.LogL env LogLevel.Success args

/-- The shortcut `SuccessIt(begin, end)`. -/
def SuccessIt (lg : Logger) (env : Env) (xs : List Arg) (begin_ end_ : Int) : Res Logger :=
  lg.LogItL env LogLevel.Success xs begin_ end_

/-- The shortcut `SuccessF(fmt, args...)`. -/
def SuccessF (lg : Logger) (env : Env) (fmt : String) (args : List Arg) : Option Logger :=
  lg.LogFL env LogLevel.Success fmt args

/-- The shortcut `Warn(args...)`. -/
def Warn (lg : Logger) (env : Env) (args : List Arg) : Logger :=
  lg.LogL env LogLevel.Warn args

/-- The shortcut `WarnIt(begin, end)`. -/
def WarnIt (lg : Logger) (env : Env) (xs : List Arg) (begin_ end_ : Int) : Res Logger :=
  lg.LogItL env LogLevel.Warn xs begin_ end_

/-- The shortcut `WarnF(fmt, args...)`. -/
def WarnF (lg : Logger) (env : Env) (fmt : String) (args : List Arg) : Option Logger :=
  lg.LogFL env LogLevel.Warn fmt args

/-- The shortcut `Error(args...)`. -/
def Error (lg : Logger) (env : Env) (args : List Arg) : Logger :=
  lg.LogL env LogLevel.Error args

/-- The shortcut `ErrorIt(begin, end)`. -/
def ErrorIt (lg : Logger) (env : Env) (xs : List Arg) (begin_ end_ : Int) : Res Logger :=
  lg.LogItL env LogLevel.Error xs begin_ end_

/-- The shortcut `ErrorF(fmt, args...)`. -/
def ErrorF (lg : Logger) (env : Env) (fmt : String) (args : List Arg) : Option Logger :=
  lg.LogFL env LogLevel.Error fmt args

/-- The shortcut `Fatal(args...)`. -/
def Fatal (lg : Logger) (env : Env) (args : List Arg) : Logger :=
  lg.LogL env LogLevel.Fatal args

/-- The shortcut `FatalIt(begin, end)`. -/
def FatalIt (lg : Logger) (env : Env) (xs : List Arg) (begin_ end_ : Int) : Res Logger :=
  lg.LogItL env LogLevel.Fatal xs begin_ end_

/-- The shortcut `FatalF(fmt, args...)`. -/
def FatalF (lg : Logger) (env : Env) (fmt : String) (args : List Arg) : Option Logger :=
  lg.LogFL env LogLevel.Fatal fmt args

end Logger

/-! ## Vocabulary of the specification -/

/-- Concatenation, in order and without separator, of the texts of the
arguments. -/
def concatText : List Arg → String
  | [] => ""
  | a :: r => a.text ++ concatText r

/-- The texts of the elements, in order, with `", "` between two consecutive
elements and nothing after the last one. -/
def commaSep : List Arg → String
  | [] => ""
  | [a] => a.text
  | a :: b :: r => a.text ++ ", " ++ commaSep (b :: r)

/-- The elements of the range `[b, e)` of the container `xs`. -/
def rangeOf (xs : List Arg) (b e : Nat) : List Arg :=
  (xs.drop b).take (e - b)

/-- Number of positions of `l` at which the pattern `p` starts. -/
def countSub (p : List Char) : List Char → Nat
  | [] => 0
  | c :: r => (if p.isPrefixOf (c :: r) then 1 else 0) + countSub p r

/-- The separator `"] ["` between two bracketed fields. -/
def fieldSep : List Char :=
  [']', ' ', '[']

/-! ## A concrete standard library for the examples -/

/-- Decimal text of `n`, padded with zeros on the left to `w` digits. -/
def pad (w : Nat) (n : Int) : String :=
  let d := toString n
  String.mk (List.replicate (w - d.length) '0') ++ d

/-- The default rendering `YYYY-MM-DD HH:MM:SS.mmm` of a time point counted
in milliseconds since 1970-01-01 00:00:00. -/
def chronoText (ms : Int) : String :=
  let days := ms / 86400000
  let r := ms % 86400000
  let z := days + 719468
  let era := z / 146097
  let doe := z - era * 146097
  let yoe := (doe - doe / 1460 + doe / 36524 - doe / 146096) / 365
  let doy := doe - (365 * yoe + yoe / 4 - yoe / 100)
  let mp := (5 * doy + 2) / 153
  let d := doy - (153 * mp + 2) / 5 + 1
  let m := if mp < 10 then mp + 3 else mp - 9
  let y := yoe + era * 400 + (if m ≤ 2 then 1 else 0)
  pad 4 y ++ "-" ++ pad 2 m ++ "-" ++ pad 2 d ++ " " ++ pad 2 (r / 3600000) ++ ":"
    ++ pad 2 (r / 60000 % 60) ++ ":" ++ pad 2 (r / 1000 % 60) ++ "." ++ pad 3 (r % 1000)

/-- Replacement of the fields `{}` of a format string by the texts of the
arguments, in order; `{{` and `}}` stand for one brace.  Any other use of a
brace, or a field without argument, is ill-formed. -/
def braceFormatAux : List Char → List Arg → Option (List Char)
  | [], _ => some []
  | '{' :: '{' :: r, as => (braceFormatAux r as).map (fun t => '{' :: t)
  | '}' :: '}' :: r, as => (braceFormatAux r as).map (fun t => '}' :: t)
  | '{' :: '}' :: r, a :: as => (braceFormatAux r as).map (fun t => a.text.data ++ t)
  | '{' :: _, _ => none
  | '}' :: _, _ => none
  | c :: r, as => (braceFormatAux r as).map (fun t => c :: t)

/-- The function `braceFormatAux` on strings. -/
def braceFormat (fmt : String) (args : List Arg) : Option String :=
  (braceFormatAux fmt.data args).map String.mk

/-- A standard library whose clock counts nanoseconds and reads
2024-05-01 13:07:22.418999999. -/
def demoEnv : Env :=
  { now := 1714568842418999999
    ticksPerMilli := 1000000
    fmtTime := chronoText
    format := braceFormat }

/-- The logger `logCout` of `main.cpp` after its set-up, on an empty sink. -/
def demoLogger : Logger :=
  ((Logger.new "CoutLogger" ⟨[]⟩).SetDefaultLogLevel LogLevel.Debug).SetForceFlush true

/-- A logger named `L` with the settings of a new logger, on an empty sink. -/
def plainLogger : Logger :=
  Logger.new "L" ⟨[]⟩

/-- The vector `vec` of `main.cpp`. -/
def demoVec : List Arg :=
  [Arg.int 1, Arg.int 2, Arg.int 3, Arg.int 4, Arg.int 5, Arg.int 6, Arg.int 7]

/-! ## The sink: basic facts -/

theorem evText_append (a b : List Ev) : evText (a ++ b) = evText a ++ evText b := by
  induction a with
  | nil => simp [evText]
  | cons x r ih =>
    cases x with
    | write t => simp [evText, ih, String.append_assoc]
    | flush => simp [evText, ih]

theorem evFlushes_append (a b : List Ev) : evFlushes (a ++ b) = evFlushes a + evFlushes b := by
  induction a with
  | nil => simp [evFlushes]
  | cons x r ih =>
    cases x with
    | write t => simp [evFlushes, ih]
    | flush => simp [evFlushes, ih]; omega

theorem evFlushes_writes (ws : List String) : evFlushes (ws.map Ev.write) = 0 := by
  induction ws with
  | nil => rfl
  | cons w r ih => simpa [evFlushes] using ih

theorem content_put (s : OStream) (t : String) : (s.put t).content = s.content ++ t := by
  simp [OStream.content, OStream.put, evText_append, evText]

theorem content_flush (s : OStream) : s.flush.content = s.content := by
  simp [OStream.content, OStream.flush, evText_append, evText]

theorem flushCount_put (s : OStream) (t : String) : (s.put t).flushCount = s.flushCount := by
  simp [OStream.flushCount, OStream.put, evFlushes_append, evFlushes]

theorem flushCount_flush (s : OStream) : s.flush.flushCount = s.flushCount + 1 := by
  simp [OStream.flushCount, OStream.flush, evFlushes_append, evFlushes]

namespace Logger

theorem putArgs_events (args : List Arg) (s : OStream) :
    (putArgs s args).events = s.events ++ args.map (fun a => Ev.write a.text) := by
  induction args generalizing s with
  | nil => simp [putArgs]
  | cons a r ih =>
    have h : putArgs s (a :: r) = putArgs (s.put a.text) r := rfl
    rw [h, ih]
    simp [OStream.put]

theorem evText_argWrites (args : List Arg) :
    evText (args.map (fun a => Ev.write a.text)) = concatText args := by
  induction args with
  | nil => rfl
  | cons a r ih => simp [evText, concatText, ih]

theorem putArgs_content (args : List Arg) (s : OStream) :
    (putArgs s args).content = s.content ++ concatText args := by
  simp [OStream.content, putArgs_events, evText_append, evText_argWrites]

theorem headerIter_eq (lg : Logger) (env : Env) (level : LogLevel) :
    lg.headerIter env level = lg.header env level ++ "\x7b " := by
  simp only [headerIter, header, String.append_assoc]
  rfl

/-- The events of `_Log`: the header, one write per argument, the newline and,
when forced, one flush. -/
theorem _Log_events (lg : Logger) (env : Env) (level : LogLevel) (args : List Arg) :
    (lg._Log env level args)._stream.events
      = lg._stream.events
        ++ (Ev.write (lg.header env level) :: args.map (fun a => Ev.write a.text))
        ++ [Ev.write "\n"] ++ (if lg._forceFlush then [Ev.flush] else []) := by
  cases hf : lg._forceFlush <;>
    simp [_Log, hf, putArgs_events, OStream.put, OStream.flush]

theorem _Log_content (lg : Logger) (env : Env) (level : LogLevel) (args : List Arg) :
    (lg._Log env level args)._stream.content
      = lg._stream.content ++ lg.header env level ++ concatText args ++ "\n" := by
  cases hf : lg._forceFlush <;>
    simp [_Log, hf, content_put, content_flush, putArgs_content]

theorem deref_append_length (pre t : List Arg) (c : Arg) (it : Int)
    (hit : it = pre.length) : deref (pre ++ c :: t) it = some c := by
  subst hit
  have h : (pre ++ c :: t)[pre.length]? = some c := by
    rw [List.getElem?_append_right (Nat.le_refl _)]
    simp
  simpa [deref] using h

/-- The loop of `_LogIter` with `begin` at the first element of `l` and
`end - 1` at the element `a` that follows `l`: it stops at `a`, having
written every element of `l` followed by `", "`. -/
theorem iterLoop_range (l : List Arg) :
    ∀ (pre post : List Arg) (a : Arg) (it end_ : Int) (fuel : Nat) (s : OStream),
      it = pre.length → end_ = pre.length + l.length + 1 → l.length < fuel →
      iterLoop (pre ++ (l ++ a :: post)) end_ fuel it s
        = Res.done (end_ - 1, ⟨s.events ++ loopEvents l⟩) := by
  induction l with
  | nil =>
    intro pre post a it end_ fuel s hit hend hfuel
    obtain ⟨f, rfl⟩ : ∃ f, fuel = f + 1 := ⟨fuel - 1, by omega⟩
    have hg : ¬ (it ≠ end_ - 1) := by
      simp only [List.length_nil] at hend
      omega
    rw [iterLoop, if_neg hg]
    simp [loopEvents, not_not.mp hg]
  | cons c r ih =>
    intro pre post a it end_ fuel s hit hend hfuel
    obtain ⟨f, rfl⟩ : ∃ f, fuel = f + 1 := ⟨fuel - 1, by omega⟩
    have hg : it ≠ end_ - 1 := by
      simp only [List.length_cons] at hend
      omega
    have hd : deref (pre ++ (c :: r ++ a :: post)) it = some c :=
      deref_append_length pre (r ++ a :: post) c it hit
    have hxs : pre ++ (c :: r ++ a :: post) = (pre ++ [c]) ++ (r ++ a :: post) := by simp
    have hrec := ih (pre ++ [c]) post a (it + 1) end_ f ((s.put c.text).put ", ")
      (by simp [hit]) (by simp [hend]; omega) (by simp at hfuel; omega)
    rw [iterLoop, if_pos hg, hd]
    simp only []
    rw [hxs, hrec]
    simp [loopEvents, OStream.put]

theorem evText_loopEvents_snoc (l : List Arg) (a : Arg) :
    evText (loopEvents l) ++ a.text = commaSep (l ++ [a]) := by
  induction l with
  | nil => simp [loopEvents, evText, commaSep]
  | cons c r ih =>
    cases r with
    | nil => simp [loopEvents, evText, commaSep, String.append_assoc]
    | cons d r2 =>
      have h : commaSep (c :: d :: r2 ++ [a]) = c.text ++ ", " ++ commaSep (d :: r2 ++ [a]) := rfl
      rw [h, ← ih]
      simp [loopEvents, evText, String.append_assoc]

theorem evFlushes_loopEvents (l : List Arg) : evFlushes (loopEvents l) = 0 := by
  induction l with
  | nil => rfl
  | cons c r ih => simpa [loopEvents, evFlushes] using ih

/-- The run of `_LogIter` on the range whose elements are `l ++ [a]`, placed
after `pre` and before `post` in the container. -/
theorem _LogIter_range (lg : Logger) (env : Env) (level : LogLevel)
    (pre l post : List Arg) (a : Arg) :
    lg._LogIter env level (pre ++ (l ++ a :: post)) pre.length (pre.length + l.length + 1)
      = Res.done { lg with _stream :=
          ⟨lg._stream.events ++ [Ev.write (lg.headerIter env level)] ++ loopEvents l
            ++ [Ev.write a.text, Ev.write " \x7d\n"]
            ++ (if lg._forceFlush then [Ev.flush] else [])⟩ } := by
  have hloop := iterLoop_range l pre post a pre.length (pre.length + l.length + 1)
    ((pre ++ (l ++ a :: post)).length + 1) (lg._stream.put (lg.headerIter env level))
    rfl rfl (by simp; omega)
  have hd : deref (pre ++ (l ++ a :: post)) ((pre.length : Int) + l.length + 1 - 1) = some a := by
    have h := deref_append_length (pre ++ l) post a ((pre.length : Int) + l.length + 1 - 1)
      (by simp)
    simpa using h
  unfold _LogIter
  simp only []
  rw [hloop]
  simp only []
  rw [hd]
  cases hf : lg._forceFlush <;> simp [OStream.put, OStream.flush]

theorem deref_some_bounds (xs : List Arg) (it : Int) (x : Arg)
    (h : deref xs it = some x) : 0 ≤ it ∧ it < xs.length := by
  unfold deref at h
  split at h
  · rename_i h0
    obtain ⟨hlt, -⟩ := List.getElem?_eq_some.mp h
    omega
  · cases h

/-- The loop of `_LogIter` never exhausts a bound larger than the number of
elements from `begin` to the end of the container. -/
theorem iterLoop_ne_noFuel (xs : List Arg) (end_ : Int) :
    ∀ (fuel : Nat) (it : Int) (s : OStream), 0 < fuel →
      (it < 0 ∨ (xs.length : Int) - it < fuel) →
      iterLoop xs end_ fuel it s ≠ Res.noFuel := by
  intro fuel
  induction fuel with
  | zero => intro it s h; omega
  | succ f ih =>
    intro it s _ hm
    rw [iterLoop]
    split
    · cases hd : deref xs it with
      | none => simp
      | some x =>
        obtain ⟨h0, h1⟩ := deref_some_bounds xs it x hd
        simp only []
        exact ih (it + 1) _ (by omega) (by omega)
    · simp

/-- The member `_LogIter` returns or stops at an access outside the container:
the bound on its loop is never exhausted. -/
theorem _LogIter_ne_noFuel (lg : Logger) (env : Env) (level : LogLevel) (xs : List Arg)
    (begin_ end_ : Int) : lg._LogIter env level xs begin_ end_ ≠ Res.noFuel := by
  have h := iterLoop_ne_noFuel xs end_ (xs.length + 1) begin_
    (lg._stream.put (lg.headerIter env level)) (by omega)
    (by rcases Int.lt_or_le begin_ 0 with h | h
        · exact Or.inl h
        · right; push_cast; omega)
  unfold _LogIter
  simp only []
  cases hl : iterLoop xs end_ (xs.length + 1) begin_ (lg._stream.put (lg.headerIter env level)) with
  | done p =>
    obtain ⟨it, s2⟩ := p
    simp only []
    cases deref xs it <;> simp
  | badDeref it s => simp
  | noFuel => exact absurd hl h

/-- The loop of `_LogIter` entered with `begin` at or after `end`: the guard
never fails, and the loop stops at the first access outside the container. -/
theorem iterLoop_past (xs : List Arg) (end_ : Int) :
    ∀ (fuel : Nat) (it : Int) (s : OStream), end_ ≤ it → 0 < fuel →
      (it < 0 ∨ (xs.length : Int) - it < fuel) →
      ∃ it2 s2 ws, iterLoop xs end_ fuel it s = Res.badDeref it2 s2
        ∧ s2.events = s.events ++ ws ∧ deref xs it2 = none
        ∧ (deref xs it = none → it2 = it ∧ ws = []) := by
  intro fuel
  induction fuel with
  | zero => intro it s _ h; omega
  | succ f ih =>
    intro it s he _ hm
    have hg : it ≠ end_ - 1 := by omega
    rw [iterLoop, if_pos hg]
    cases hd : deref xs it with
    | none => exact ⟨it, s, [], by simp, by simp, hd, fun _ => ⟨rfl, rfl⟩⟩
    | some x =>
      obtain ⟨h0, h1⟩ := deref_some_bounds xs it x hd
      obtain ⟨it2, s2, ws, hr, hev, hnone, -⟩ :=
        ih (it + 1) ((s.put x.text).put ", ") (by omega) (by omega) (by omega)
      refine ⟨it2, s2, Ev.write x.text :: Ev.write ", " :: ws, ?_, ?_, hnone, ?_⟩
      · simpa using hr
      · simp [hev, OStream.put]
      · intro h; cases h

theorem deref_length_none (xs : List Arg) (it : Int) (hit : it = xs.length) :
    deref xs it = none := by
  subst hit
  simp [deref]

/-- The loop of `_LogIter` entered with `begin` at or after `end`, `begin` at
the first element of the rest `l` of the container: every element of `l` is
written followed by `", "`, and the run stops at the access at the
container's end. -/
theorem iterLoop_past_exact (l : List Arg) :
    ∀ (pre : List Arg) (it end_ : Int) (fuel : Nat) (s : OStream),
      it = pre.length → end_ ≤ it → l.length < fuel →
      iterLoop (pre ++ l) end_ fuel it s
        = Res.badDeref ((pre.length : Int) + l.length) ⟨s.events ++ loopEvents l⟩ := by
  induction l with
  | nil =>
    intro pre it end_ fuel s hit hend hfuel
    obtain ⟨f, rfl⟩ : ∃ f, fuel = f + 1 := ⟨fuel - 1, by omega⟩
    have hg : it ≠ end_ - 1 := by omega
    have hd : deref (pre ++ []) it = none := deref_length_none _ it (by simp [hit])
    rw [iterLoop, if_pos hg, hd]
    simp [loopEvents, hit]
  | cons c r ih =>
    intro pre it end_ fuel s hit hend hfuel
    obtain ⟨f, rfl⟩ : ∃ f, fuel = f + 1 := ⟨fuel - 1, by omega⟩
    have hg : it ≠ end_ - 1 := by omega
    have hd : deref (pre ++ c :: r) it = some c := deref_append_length pre r c it hit
    have hxs : pre ++ c :: r = (pre ++ [c]) ++ r := by simp
    have hrec := ih (pre ++ [c]) (it + 1) end_ f ((s.put c.text).put ", ")
      (by simp [hit]) (by omega) (by simp at hfuel; omega)
    rw [iterLoop, if_pos hg, hd]
    simp only []
    rw [hxs, hrec]
    simp [loopEvents, OStream.put]
    omega

end Logger

/-! ## Counting the separators of a header -/

theorem countSub_fieldSep_append (l r : List Char) :
    countSub fieldSep (l ++ (fieldSep ++ r)) = countSub fieldSep l + 1 + countSub fieldSep r := by
  induction l with
  | nil =>
    cases r with
    | nil => decide
    | cons x t => simp [countSub, fieldSep, List.isPrefixOf]
  | cons c t ih =>
    have hp : fieldSep.isPrefixOf (c :: (t ++ (fieldSep ++ r))) = fieldSep.isPrefixOf (c :: t) := by
      match t with
      | [] => simp [fieldSep, List.isPrefixOf]
      | [d] => simp [fieldSep, List.isPrefixOf]
      | d :: d2 :: t2 => simp [fieldSep, List.isPrefixOf]
    have h1 : countSub fieldSep (c :: t ++ (fieldSep ++ r))
        = (if fieldSep.isPrefixOf (c :: (t ++ (fieldSep ++ r))) then 1 else 0)
          + countSub fieldSep (t ++ (fieldSep ++ r)) := rfl
    have h2 : countSub fieldSep (c :: t)
        = (if fieldSep.isPrefixOf (c :: t) then 1 else 0) + countSub fieldSep t := rfl
    rw [h1, h2, hp, ih]
    omega

theorem countSub_fieldSep_colon (l : List Char) :
    countSub fieldSep (l ++ [']', ':', ' ']) = countSub fieldSep l := by
  induction l with
  | nil => decide
  | cons c t ih =>
    have hp : fieldSep.isPrefixOf (c :: (t ++ [']', ':', ' '])) = fieldSep.isPrefixOf (c :: t) := by
      match t with
      | [] => simp [fieldSep, List.isPrefixOf]
      | [d] => simp [fieldSep, List.isPrefixOf]
      | d :: d2 :: t2 => simp [fieldSep, List.isPrefixOf]
    have h1 : countSub fieldSep (c :: t ++ [']', ':', ' '])
        = (if fieldSep.isPrefixOf (c :: (t ++ [']', ':', ' '])) then 1 else 0)
          + countSub fieldSep (t ++ [']', ':', ' ']) := rfl
    have h2 : countSub fieldSep (c :: t)
        = (if fieldSep.isPrefixOf (c :: t) then 1 else 0) + countSub fieldSep t := rfl
    rw [h1, h2, hp, ih]

theorem countSub_fieldSep_label (level : LogLevel) :
    countSub fieldSep (ToString level).data = 0 := by
  cases level <;> decide

theorem header_data (lg : Logger) (env : Env) (level : LogLevel) :
    (lg.header env level).data
      = ('[' :: (env.fmtTime env.time).data)
        ++ (fieldSep ++ ((ToString level).data
          ++ (fieldSep ++ (lg._name.data ++ [']', ':', ' '])))) := by
  simp [Logger.header, String.data_append, fieldSep]

/-- The header of a record holds exactly two separators `"] ["` when neither
the rendered time nor the name holds one. -/
theorem header_count (lg : Logger) (env : Env) (level : LogLevel)
    (hts : countSub fieldSep (env.fmtTime env.time).data = 0)
    (hname : countSub fieldSep lg._name.data = 0) :
    countSub fieldSep (lg.header env level).data = 2 := by
  have h0 : countSub fieldSep ('[' :: (env.fmtTime env.time).data) = 0 := by
    have : countSub fieldSep ('[' :: (env.fmtTime env.time).data)
        = (if fieldSep.isPrefixOf ('[' :: (env.fmtTime env.time).data) then 1 else 0)
          + countSub fieldSep (env.fmtTime env.time).data := rfl
    rw [this, hts]
    simp [fieldSep, List.isPrefixOf]
  rw [header_data, countSub_fieldSep_append, countSub_fieldSep_append,
    countSub_fieldSep_colon, h0, countSub_fieldSep_label, hname]

/-! ## Shared facts on the two emission paths -/

namespace Logger

theorem putArgs_flushCount (args : List Arg) (s : OStream) :
    (putArgs s args).flushCount = s.flushCount := by
  have h : args.map (fun a => Ev.write a.text) = (args.map Arg.text).map Ev.write := by simp
  rw [OStream.flushCount, putArgs_events, evFlushes_append, h, evFlushes_writes]
  rfl

theorem _Log_flushCount (lg : Logger) (env : Env) (level : LogLevel) (args : List Arg) :
    (lg._Log env level args)._stream.flushCount
      = lg._stream.flushCount + (if lg._forceFlush then 1 else 0) := by
  cases hf : lg._forceFlush <;>
    simp [_Log, hf, flushCount_put, flushCount_flush, putArgs_flushCount]

theorem loopEvents_writes (l : List Arg) :
    ∃ ws : List String, loopEvents l = ws.map Ev.write := by
  induction l with
  | nil => exact ⟨[], rfl⟩
  | cons c r ih =>
    obtain ⟨ws, hws⟩ := ih
    exact ⟨c.text :: ", " :: ws, by simp [loopEvents, hws]⟩

theorem record_ends (h payload : String) :
    (h ++ payload ++ "\n").data.getLast? = some '\n' := by
  simp [String.data_append]

theorem record_starts (lg : Logger) (env : Env) (level : LogLevel) (payload : String) :
    (lg.header env level ++ payload ++ "\n").data.head? = some '[' := by
  simp [String.data_append, header_data]

/-- The run of `_LogIter` on a non-empty range `l` of the container
`pre ++ l ++ post`: it returns; the sink receives writes only, the last one
`" }\n"`, then one flush when forced; the text appended is the header, the
braces around the elements separated by `", "`, and a newline. -/
theorem _LogIter_nonempty (lg : Logger) (env : Env) (level : LogLevel)
    (pre l post : List Arg) (hl : l ≠ []) :
    ∃ (lg2 : Logger) (ws : List String),
      lg._LogIter env level (pre ++ l ++ post) pre.length ((pre.length : Int) + l.length)
          = Res.done lg2
        ∧ lg2._stream.events
          = lg._stream.events ++ ws.map Ev.write ++ [Ev.write " \x7d\n"]
            ++ (if lg._forceFlush then [Ev.flush] else [])
        ∧ lg2._stream.content
          = lg._stream.content
            ++ (lg.header env level ++ ("\x7b " ++ commaSep l ++ " \x7d") ++ "\n")
        ∧ lg2._stream.flushCount = lg._stream.flushCount + (if lg._forceFlush then 1 else 0)
        ∧ lg2._name = lg._name ∧ lg2._defaultLevel = lg._defaultLevel
        ∧ lg2._forceFlush = lg._forceFlush := by
  obtain ⟨l0, a, rfl⟩ : ∃ l0 a, l = l0 ++ [a] :=
    ⟨l.dropLast, l.getLast hl, (List.dropLast_append_getLast hl).symm⟩
  have hxs : pre ++ (l0 ++ [a]) ++ post = pre ++ (l0 ++ a :: post) := by simp
  have hend : (pre.length : Int) + ((l0 ++ [a]).length : Nat) = pre.length + l0.length + 1 := by
    simp only [List.length_append, List.length_singleton]
    push_cast
    omega
  have hbr : ∀ t : String, "]: " ++ ("\x7b " ++ t) = "]: \x7b " ++ t := by
    intro t
    rw [← String.append_assoc]
    rfl
  have hnl : ∀ t : String, t ++ (" \x7d" ++ "\n") = t ++ " \x7d\n" := fun _ => rfl
  obtain ⟨ws, hws⟩ := loopEvents_writes l0
  rw [hxs, hend, _LogIter_range lg env level pre l0 post a]
  refine ⟨_, lg.headerIter env level :: ws ++ [a.text], rfl, ?_, ?_, ?_, rfl, rfl, rfl⟩
  · simp [hws]
  · rw [← evText_loopEvents_snoc]
    cases hf : lg._forceFlush <;>
      simp [OStream.content, evText_append, evText, headerIter, header,
        String.append_assoc, hbr, hnl]
  · cases hf : lg._forceFlush <;>
      simp [OStream.flushCount, evFlushes_append, evFlushes, evFlushes_loopEvents]

/-- The run of `_LogIter` on an empty range `begin == end`: it stops at an
access outside the container, after the header and `"{ "` were written. -/
theorem _LogIter_empty (lg : Logger) (env : Env) (level : LogLevel) (xs : List Arg)
    (b : Int) :
    ∃ it s ws, lg._LogIter env level xs b b = Res.badDeref it s
      ∧ s.events = lg._stream.events ++ Ev.write (lg.header env level ++ "\x7b ") :: ws
      ∧ deref xs it = none
      ∧ (deref xs b = none → it = b ∧ ws = []) := by
  obtain ⟨it, s, ws, hr, hev, hnone, himp⟩ :=
    iterLoop_past xs b (xs.length + 1) b (lg._stream.put (lg.headerIter env level))
      (Int.le_refl b) (by omega)
      (by rcases Int.lt_or_le b 0 with h | h
          · exact Or.inl h
          · right; push_cast; omega)
  refine ⟨it, s, ws, ?_, ?_, hnone, himp⟩
  · unfold _LogIter
    simp only []
    rw [hr]
  · rw [hev, ← headerIter_eq]
    simp [OStream.put]

/-- The run of `_LogIter` on the empty range at the position `pre.length` of
the container `pre ++ l`: after the header and `"{ "`, every element of `l`
is written followed by `", "`, and the run stops at the access at the
container's end. -/
theorem _LogIter_empty_exact (lg : Logger) (env : Env) (level : LogLevel)
    (pre l : List Arg) :
    lg._LogIter env level (pre ++ l) pre.length pre.length
      = Res.badDeref ((pre.length : Int) + l.length)
          ⟨lg._stream.events ++ Ev.write (lg.header env level ++ "\x7b ") :: loopEvents l⟩ := by
  have hloop := iterLoop_past_exact l pre pre.length pre.length ((pre ++ l).length + 1)
    (lg._stream.put (lg.headerIter env level)) rfl (Int.le_refl _) (by simp; omega)
  unfold _LogIter
  simp only []
  rw [hloop, ← headerIter_eq]
  simp [OStream.put]

end Logger

/-! ## The claims -/

/-- C1: for every severity `L`, logger name and argument list, `Log(L, a1, ..., an)`
appends to the sink exactly `"[" ++ ts ++ "] [" ++ ToString(L) ++ "] [" ++ N ++ "]: "`
followed by the texts of the arguments, in order and without separator,
followed by one newline; name, default level and flush policy are unchanged. -/
theorem Log_appends_record (lg : Logger) (env : Env) (L : LogLevel) (args : List Arg) :
    (lg.LogL env L args)._stream.content
        = lg._stream.content
          ++ ("[" ++ env.fmtTime env.time ++ "] [" ++ ToString L ++ "] [" ++ lg._name ++ "]: "
              ++ concatText args ++ "\n")
      ∧ (lg.LogL env L args)._name = lg._name
      ∧ (lg.LogL env L args)._defaultLevel = lg._defaultLevel
      ∧ (lg.LogL env L args)._forceFlush = lg._forceFlush := by
  refine ⟨?_, rfl, rfl, rfl⟩
  rw [Logger.LogL, Logger._Log_content, Logger.header]
  simp only [String.append_assoc]

/-- C2: for every severity `L` and every non-empty range `l` (placed anywhere in
its container), `LogIt(L, begin, end)` returns, and appends one record whose
body after the header is `"{ "`, the texts of the elements in order separated
by `", "`, then `" }"` and a newline. -/
theorem LogIt_nonempty_range (lg : Logger) (env : Env) (L : LogLevel)
    (pre l post : List Arg) (hl : l ≠ []) :
    ∃ lg2, lg.LogItL env L (pre ++ l ++ post) pre.length ((pre.length : Int) + l.length)
          = Res.done lg2
      ∧ lg2._stream.content
          = lg._stream.content
            ++ ("[" ++ env.fmtTime env.time ++ "] [" ++ ToString L ++ "] [" ++ lg._name ++ "]: "
                ++ ("\x7b " ++ commaSep l ++ " \x7d") ++ "\n")
      ∧ lg2._name = lg._name ∧ lg2._defaultLevel = lg._defaultLevel
      ∧ lg2._forceFlush = lg._forceFlush := by
  obtain ⟨lg2, -, hrun, -, hcontent, -, hn, hd, hf⟩ :=
    Logger._LogIter_nonempty lg env L pre l post hl
  refine ⟨lg2, hrun, ?_, hn, hd, hf⟩
  rw [hcontent, Logger.header]

/-- C3: a new logger has default level `Info` and force-flush off; the
level-less `Log`, `LogIt` and `LogF` are the operations at the current default
level; after `SetDefaultLogLevel(L)` the label of a level-less record is
`ToString(L)`. -/
theorem default_level_used (name : String) (sink : OStream) (lg : Logger) (env : Env)
    (L : LogLevel) (args xs : List Arg) (begin_ end_ : Int) (fmt : String) :
    (Logger.new name sink)._defaultLevel = LogLevel.Info
      ∧ (Logger.new name sink)._forceFlush = false
      ∧ lg.Log env args = lg.LogL env lg._defaultLevel args
      ∧ lg.LogIt env xs begin_ end_ = lg.LogItL env lg._defaultLevel xs begin_ end_
      ∧ lg.LogF env fmt args = lg.LogFL env lg._defaultLevel fmt args
      ∧ (lg.SetDefaultLogLevel L)._defaultLevel = L
      ∧ ((lg.SetDefaultLogLevel L).Log env args)._stream.content
          = lg._stream.content
            ++ ("[" ++ env.fmtTime env.time ++ "] [" ++ ToString L ++ "] [" ++ lg._name ++ "]: "
                ++ concatText args ++ "\n") := by
  refine ⟨rfl, rfl, rfl, rfl, rfl, rfl, ?_⟩
  rw [Logger.Log, Logger._Log_content, Logger.header]
  simp only [Logger.SetDefaultLogLevel, String.append_assoc]

/-- C4: each of the 21 shortcuts `S`, `SIt`, `SF` (for the seven severities `S`) is
the generic `Log`, `LogIt`, `LogF` called with the severity `S` of its name,
on every logger state and every argument. -/
theorem shortcuts_pass_own_level (lg : Logger) (env : Env) (args xs : List Arg)
    (begin_ end_ : Int) (fmt : String) :
    (lg.Trace env args = lg.LogL env LogLevel.Trace args
      ∧ lg.TraceIt env xs begin_ end_ = lg.LogItL env LogLevel.Trace xs begin_ end_
      ∧ lg.TraceF env fmt args = lg.LogFL env LogLevel.Trace fmt args)
    ∧ (lg.Debug env args = lg.LogL env LogLevel.Debug args
      ∧ lg.DebugIt env xs begin_ end_ = lg.LogItL env LogLevel.Debug xs begin_ end_
      ∧ lg.DebugF env fmt args = lg.LogFL env LogLevel.Debug fmt args)
    ∧ (lg.Info env args = lg.LogL env LogLevel.Info args
      ∧ lg.InfoIt env xs begin_ end_ = lg.LogItL env LogLevel.Info xs begin_ end_
      ∧ lg.InfoF env fmt args = lg.LogFL env LogLevel.Info fmt args)
    ∧ (lg.Success env args = lg.LogL env LogLevel.Success args
      ∧ lg.SuccessIt env xs begin_ end_ = lg.LogItL env LogLevel.Success xs begin_ end_
      ∧ lg.SuccessF env fmt args = lg.LogFL env LogLevel.Success fmt args)
    ∧ (lg.Warn env args = lg.LogL env LogLevel.Warn args
      ∧ lg.WarnIt env xs begin_ end_ = lg.LogItL env LogLevel.Warn xs begin_ end_
      ∧ lg.WarnF env fmt args = lg.LogFL env LogLevel.Warn fmt args)
    ∧ (lg.Error env args = lg.LogL env LogLevel.Error args
      ∧ lg.ErrorIt env xs begin_ end_ = lg.LogItL env LogLevel.Error xs begin_ end_
      ∧ lg.ErrorF env fmt args = lg.LogFL env LogLevel.Error fmt args)
    ∧ (lg.Fatal env args = lg.LogL env LogLevel.Fatal args
      ∧ lg.FatalIt env xs begin_ end_ = lg.LogItL env LogLevel.Fatal xs begin_ end_
      ∧ lg.FatalF env fmt args = lg.LogFL env LogLevel.Fatal fmt args) := by
  exact ⟨⟨rfl, rfl, rfl⟩, ⟨rfl, rfl, rfl⟩, ⟨rfl, rfl, rfl⟩, ⟨rfl, rfl, rfl⟩, ⟨rfl, rfl, rfl⟩, ⟨rfl, rfl, rfl⟩, ⟨rfl, rfl, rfl⟩⟩

/-- C5: when `std::format(fmt, args...)` is defined and yields `s`, `LogF(L, fmt, args...)`
is `Log(L, s)` and `LogF(fmt, args...)` is `Log(default_level, s)`: same
logger, same sink, byte for byte. -/
theorem LogF_is_Log_of_formatted (lg : Logger) (env : Env) (L : LogLevel) (fmt : String)
    (args : List Arg) (s : String) (h : env.format fmt args = some s) :
    lg.LogFL env L fmt args = some (lg.LogL env L [Arg.str s])
      ∧ lg.LogF env fmt args = some (lg.LogL env lg._defaultLevel [Arg.str s])
      ∧ lg.LogF env fmt args = some (lg.Log env [Arg.str s])
      ∧ (lg.LogFL env L fmt args).map (fun r => r._stream.content)
          = some (lg._stream.content ++ (lg.header env L ++ s ++ "\n")) := by
  have h1 : lg.LogFL env L fmt args = some (lg.LogL env L [Arg.str s]) := by
    simp [Logger.LogFL, Logger.LogL, h]
  have h2 : lg.LogF env fmt args = some (lg.LogL env lg._defaultLevel [Arg.str s]) := by
    simp [Logger.LogF, Logger.LogL, h]
  refine ⟨h1, h2, h2, ?_⟩
  rw [h1, Option.map_some', Logger.LogL, Logger._Log_content]
  simp [concatText, Arg.text, String.append_assoc]

/-- C5 at `ErrorF("{} + {} != {}", 2, 2, 4)` of `main.cpp`. -/
theorem LogF_is_Log_of_formatted_witness :
    demoEnv.format "\x7b\x7d + \x7b\x7d != \x7b\x7d" [Arg.int 2, Arg.int 2, Arg.int 4]
        = some "2 + 2 != 4"
      ∧ plainLogger.LogFL demoEnv LogLevel.Error "\x7b\x7d + \x7b\x7d != \x7b\x7d"
          [Arg.int 2, Arg.int 2, Arg.int 4]
        = some (plainLogger.LogL demoEnv LogLevel.Error [Arg.str "2 + 2 != 4"]) :=
  ⟨by decide,
    (LogF_is_Log_of_formatted plainLogger demoEnv LogLevel.Error
      "\x7b\x7d + \x7b\x7d != \x7b\x7d" [Arg.int 2, Arg.int 2, Arg.int 4] "2 + 2 != 4"
      (by decide)).1⟩

/-- C2 at `DebugIt(vec.begin(), vec.end())` of `main.cpp`. -/
theorem LogIt_nonempty_range_witness :
    demoVec ≠ []
      ∧ ∃ lg2, demoLogger.LogItL demoEnv LogLevel.Debug ([] ++ demoVec ++ [])
            (([] : List Arg).length : Int) ((([] : List Arg).length : Int) + demoVec.length)
          = Res.done lg2
        ∧ lg2._stream.content
          = demoLogger._stream.content
            ++ ("[" ++ demoEnv.fmtTime demoEnv.time ++ "] [" ++ ToString LogLevel.Debug ++ "] ["
                ++ demoLogger._name ++ "]: "
                ++ ("\x7b " ++ commaSep demoVec ++ " \x7d") ++ "\n")
        ∧ lg2._name = demoLogger._name ∧ lg2._defaultLevel = demoLogger._defaultLevel
        ∧ lg2._forceFlush = demoLogger._forceFlush :=
  ⟨by decide, LogIt_nonempty_range demoLogger demoEnv LogLevel.Debug [] demoVec [] (by decide)⟩

/-- C6: `ToString` maps the ordinals 0..6 of `Trace`, `Debug`, `Info`, `Success`,
`Warn`, `Error`, `Fatal` to exactly these seven words; no result is empty and
two different severities never share a display string. -/
theorem ToString_total_injective :
    (LogLevel.Trace.toInt = 0 ∧ ToString LogLevel.Trace = "Trace")
      ∧ (LogLevel.Debug.toInt = 1 ∧ ToString LogLevel.Debug = "Debug")
      ∧ (LogLevel.Info.toInt = 2 ∧ ToString LogLevel.Info = "Info")
      ∧ (LogLevel.Success.toInt = 3 ∧ ToString LogLevel.Success = "Success")
      ∧ (LogLevel.Warn.toInt = 4 ∧ ToString LogLevel.Warn = "Warn")
      ∧ (LogLevel.Error.toInt = 5 ∧ ToString LogLevel.Error = "Error")
      ∧ (LogLevel.Fatal.toInt = 6 ∧ ToString LogLevel.Fatal = "Fatal")
      ∧ (∀ l : LogLevel, ToString l ≠ "")
      ∧ (∀ l : LogLevel, ToString l = ToStringRaw l.toInt)
      ∧ Function.Injective ToString := by
  refine ⟨by decide, by decide, by decide, by decide, by decide, by decide, by decide,
    ?_, fun _ => rfl, ?_⟩
  · intro l
    cases l <;> decide
  · intro a b h
    cases a <;> cases b <;> first | rfl | (exact absurd h (by decide))

/-- C7: on both emission paths the sink receives the writes of the record, the
last one carrying the newline, and after them exactly one flush when
`_forceFlush` is true and no flush when it is false; the flush counter grows
by one, respectively stays unchanged. -/
theorem flush_once_per_record (lg : Logger) (env : Env) (L : LogLevel)
    (args pre l post : List Arg) (hl : l ≠ []) :
    ((lg._Log env L args)._stream.flushCount
          = lg._stream.flushCount + (if lg._forceFlush then 1 else 0)
        ∧ ∃ ws : List String, (lg._Log env L args)._stream.events
            = lg._stream.events ++ ws.map Ev.write ++ [Ev.write "\n"]
              ++ (if lg._forceFlush then [Ev.flush] else []))
      ∧ (∃ lg2, lg._LogIter env L (pre ++ l ++ post) pre.length
              ((pre.length : Int) + l.length) = Res.done lg2
          ∧ lg2._stream.flushCount
            = lg._stream.flushCount + (if lg._forceFlush then 1 else 0)
          ∧ ∃ ws : List String, lg2._stream.events
              = lg._stream.events ++ ws.map Ev.write ++ [Ev.write " \x7d\n"]
                ++ (if lg._forceFlush then [Ev.flush] else []))
      ∧ ((lg.SetForceFlush true)._Log env L args)._stream.flushCount
          = lg._stream.flushCount + 1
      ∧ ((lg.SetForceFlush false)._Log env L args)._stream.flushCount
          = lg._stream.flushCount := by
  refine ⟨⟨Logger._Log_flushCount lg env L args,
      lg.header env L :: args.map Arg.text, ?_⟩, ?_, ?_, ?_⟩
  · rw [Logger._Log_events]
    simp
  · obtain ⟨lg2, ws, hrun, hev, -, hfl, -⟩ := Logger._LogIter_nonempty lg env L pre l post hl
    exact ⟨lg2, hrun, hfl, ws, hev⟩
  · rw [Logger._Log_flushCount]
    simp [Logger.SetForceFlush]
  · rw [Logger._Log_flushCount]
    simp [Logger.SetForceFlush]

/-- C7 at `Log("Hello", "Log!")` and `DebugIt(vec.begin(), vec.end())` of `main.cpp`,
on the logger with force-flush on. -/
theorem flush_once_per_record_witness :
    demoVec ≠ []
      ∧ (∃ lg2, demoLogger._LogIter demoEnv LogLevel.Debug ([] ++ demoVec ++ [])
              (([] : List Arg).length : Int) ((([] : List Arg).length : Int) + demoVec.length)
            = Res.done lg2
          ∧ lg2._stream.flushCount
            = demoLogger._stream.flushCount + (if demoLogger._forceFlush then 1 else 0)
          ∧ ∃ ws : List String, lg2._stream.events
              = demoLogger._stream.events ++ ws.map Ev.write ++ [Ev.write " \x7d\n"]
                ++ (if demoLogger._forceFlush then [Ev.flush] else [])) :=
  ⟨by decide,
    (flush_once_per_record demoLogger demoEnv LogLevel.Debug
      [Arg.str "Hello", Arg.str "Log!"] [] demoVec [] (by decide)).2.1⟩

/-- C8, as the code has it: when neither the rendered time nor the logger name
holds `"] ["`, the header of a record holds exactly two separators `"] ["`
(between its three bracketed fields); every record emitted by `_Log` or by
`_LogIter` on a non-empty range is this header, a payload and a newline, so
it starts with `'['` and ends with a newline. -/
theorem record_shape (lg : Logger) (env : Env) (L : LogLevel) (args pre l post : List Arg)
    (hts : countSub fieldSep (env.fmtTime env.time).data = 0)
    (hname : countSub fieldSep lg._name.data = 0) (hl : l ≠ []) :
    countSub fieldSep (lg.header env L).data = 2
      ∧ (∃ payload : String,
          (lg._Log env L args)._stream.content
              = lg._stream.content ++ (lg.header env L ++ payload ++ "\n")
            ∧ (lg.header env L ++ payload ++ "\n").data.head? = some '['
            ∧ (lg.header env L ++ payload ++ "\n").data.getLast? = some '\n')
      ∧ (∃ (lg2 : Logger) (payload : String),
          lg._LogIter env L (pre ++ l ++ post) pre.length ((pre.length : Int) + l.length)
              = Res.done lg2
            ∧ lg2._stream.content
              = lg._stream.content ++ (lg.header env L ++ payload ++ "\n")
            ∧ (lg.header env L ++ payload ++ "\n").data.head? = some '['
            ∧ (lg.header env L ++ payload ++ "\n").data.getLast? = some '\n') := by
  refine ⟨header_count lg env L hts hname, ⟨concatText args, ?_, ?_, ?_⟩, ?_⟩
  · rw [Logger._Log_content]
    simp only [String.append_assoc]
  · exact Logger.record_starts lg env L _
  · exact Logger.record_ends _ _
  · obtain ⟨lg2, -, hrun, -, hcontent, -⟩ := Logger._LogIter_nonempty lg env L pre l post hl
    exact ⟨lg2, _, hrun, hcontent, Logger.record_starts lg env L _, Logger.record_ends _ _⟩

/-- C8 at scenario 1, `Log("Hello", "Log!")` on the logger named `L`. -/
theorem record_shape_witness :
    (countSub fieldSep (demoEnv.fmtTime demoEnv.time).data = 0
        ∧ countSub fieldSep plainLogger._name.data = 0 ∧ demoVec ≠ [])
      ∧ countSub fieldSep (plainLogger.header demoEnv LogLevel.Info).data = 2 :=
  ⟨⟨by decide, by decide, by decide⟩,
    (record_shape plainLogger demoEnv LogLevel.Info [Arg.str "Hello", Arg.str "Log!"]
      [] demoVec [] (by decide) (by decide) (by decide)).1⟩

/-- C8 as stated fails: the record of scenario 1 is
`[2024-05-01 13:07:22.418] [Info] [L]: HelloLog!`, neither its time nor its name
holds `"] ["`, and its header (and the whole record) holds two separators
`"] ["`, not three. -/
theorem record_has_two_separators_not_three :
    countSub fieldSep (demoEnv.fmtTime demoEnv.time).data = 0
      ∧ countSub fieldSep plainLogger._name.data = 0
      ∧ (plainLogger.Log demoEnv [Arg.str "Hello", Arg.str "Log!"])._stream.content
          = "[2024-05-01 13:07:22.418] [Info] [L]: HelloLog!\n"
      ∧ plainLogger.header demoEnv LogLevel.Info = "[2024-05-01 13:07:22.418] [Info] [L]: "
      ∧ countSub fieldSep (plainLogger.header demoEnv LogLevel.Info).data = 2
      ∧ countSub fieldSep
          (plainLogger.Log demoEnv [Arg.str "Hello", Arg.str "Log!"])._stream.content.data = 2
      ∧ ¬ (countSub fieldSep (plainLogger.header demoEnv LogLevel.Info).data = 3) := by
  decide

/-- C10, as the code has it: on an empty range `begin == end`, `LogIt` never
returns a record: the guard `begin != end - 1` holds at the start and at
every later step, so after the header and `"{ "` were written the run stops
at an element access outside the container.  That access is the first one,
`*begin`, exactly when `begin` itself cannot be dereferenced (the empty range
of a whole container); for an empty range at the position `pre.length` of a
container `pre ++ rest`, the elements of `rest` are written first, each
followed by `", "`, and the failing access is the one at the container's
end.  No body `"{  }"` is produced. -/
theorem LogIt_empty_range (lg : Logger) (env : Env) (L : LogLevel) (xs : List Arg) (b : Int)
    (pre rest : List Arg) :
    (b ≠ b - 1)
      ∧ (∃ it s ws, lg.LogItL env L xs b b = Res.badDeref it s
          ∧ s.events = lg._stream.events ++ Ev.write (lg.header env L ++ "\x7b ") :: ws
          ∧ deref xs it = none
          ∧ (deref xs b = none → it = b ∧ ws = []))
      ∧ (∀ lg2, lg.LogItL env L xs b b ≠ Res.done lg2)
      ∧ lg.LogIt env xs b b = lg.LogItL env lg._defaultLevel xs b b
      ∧ lg.LogItL env L (pre ++ rest) pre.length pre.length
          = Res.badDeref ((pre.length : Int) + rest.length)
              ⟨lg._stream.events
                ++ Ev.write (lg.header env L ++ "\x7b ") :: Logger.loopEvents rest⟩ := by
  obtain ⟨it, s, ws, hr, hev, hnone, himp⟩ := Logger._LogIter_empty lg env L xs b
  refine ⟨by omega, ⟨it, s, ws, hr, hev, hnone, himp⟩, ?_, rfl,
    Logger._LogIter_empty_exact lg env L pre rest⟩
  intro lg2 h
  rw [Logger.LogItL, hr] at h
  cases h

/-- C10 on the empty vector: `LogIt(L, v.begin(), v.end())` with `v` empty stops at
the first access, the sink holding the header and `"{ "` only. -/
theorem LogIt_empty_range_witness :
    deref [] 0 = none
      ∧ ∃ it s ws, plainLogger.LogItL demoEnv LogLevel.Info [] 0 0 = Res.badDeref it s
          ∧ s.events = plainLogger._stream.events
              ++ Ev.write (plainLogger.header demoEnv LogLevel.Info ++ "\x7b ") :: ws
          ∧ deref [] it = none
          ∧ (deref [] 0 = none → it = 0 ∧ ws = []) :=
  ⟨by decide, (LogIt_empty_range plainLogger demoEnv LogLevel.Info [] 0 [] []).2.1⟩

/-- C10 as stated fails: at `DebugIt(vec.begin(), vec.begin())` on the vector
`1..7` of `main.cpp` the range is empty, yet the first access `*begin` is
inside the container and yields `1`; the run writes the seven elements, each
followed by `", "`, and stops only at the access at position 7. -/
theorem empty_range_first_access_succeeds :
    deref demoVec 0 = some (Arg.int 1)
      ∧ demoLogger.DebugIt demoEnv demoVec 0 0 = Res.badDeref 7
          ⟨[Ev.write "[2024-05-01 13:07:22.418] [Debug] [CoutLogger]: \x7b ",
            Ev.write "1", Ev.write ", ", Ev.write "2", Ev.write ", ", Ev.write "3",
            Ev.write ", ", Ev.write "4", Ev.write ", ", Ev.write "5", Ev.write ", ",
            Ev.write "6", Ev.write ", ", Ev.write "7", Ev.write ", "]⟩
      ∧ ¬ (∃ s, demoLogger.DebugIt demoEnv demoVec 0 0 = Res.badDeref 0 s)
      ∧ ¬ (∀ (xs : List Arg) (b : Int), ∃ s,
            demoLogger.LogItL demoEnv LogLevel.Debug xs b b = Res.badDeref b s) := by
  have hrun : demoLogger.DebugIt demoEnv demoVec 0 0 = Res.badDeref 7
      ⟨[Ev.write "[2024-05-01 13:07:22.418] [Debug] [CoutLogger]: \x7b ",
        Ev.write "1", Ev.write ", ", Ev.write "2", Ev.write ", ", Ev.write "3",
        Ev.write ", ", Ev.write "4", Ev.write ", ", Ev.write "5", Ev.write ", ",
        Ev.write "6", Ev.write ", ", Ev.write "7", Ev.write ", "]⟩ := by
    decide
  have hne : ¬ (∃ s, demoLogger.DebugIt demoEnv demoVec 0 0 = Res.badDeref 0 s) := by
    rintro ⟨s, hs⟩
    rw [hrun] at hs
    injection hs with h7 _
    exact absurd h7 (by decide)
  exact ⟨by decide, hrun, hne, fun hall => hne (hall demoVec 0)⟩

/-! ## The scenarios of `main.cpp` -/

theorem chronoText_demo : chronoText demoEnv.time = "2024-05-01 13:07:22.418" := by
  decide

theorem scenario_Log_default :
    (plainLogger.Log demoEnv [Arg.str "Hello", Arg.str "Log!"])._stream.content
      = "[2024-05-01 13:07:22.418] [Info] [L]: HelloLog!\n" := by
  decide

theorem scenario_SetDefaultLogLevel :
    ((plainLogger.SetDefaultLogLevel LogLevel.Debug).Log demoEnv [Arg.str "x"])._stream.content
      = "[2024-05-01 13:07:22.418] [Debug] [L]: x\n" := by
  decide

theorem scenario_DebugIt :
    demoLogger.DebugIt demoEnv demoVec 0 7 = Res.done
      { demoLogger with _stream :=
          ⟨[Ev.write "[2024-05-01 13:07:22.418] [Debug] [CoutLogger]: \x7b ",
            Ev.write "1", Ev.write ", ", Ev.write "2", Ev.write ", ", Ev.write "3",
            Ev.write ", ", Ev.write "4", Ev.write ", ", Ev.write "5", Ev.write ", ",
            Ev.write "6", Ev.write ", ", Ev.write "7", Ev.write " \x7d\n", Ev.flush]⟩ } := by
  decide

theorem scenario_ErrorF :
    (plainLogger.ErrorF demoEnv "\x7b\x7d + \x7b\x7d != \x7b\x7d"
        [Arg.int 2, Arg.int 2, Arg.int 4]).map (fun lg => lg._stream.content)
      = some "[2024-05-01 13:07:22.418] [Error] [L]: 2 + 2 != 4\n" := by
  decide

end Th.Log
